import Mathlib

/-!
Verification development for the Chatey chat server
(`src/server/src/main.rs`, `src/server/src/helpers.rs`, `src/shared/src/lib.rs`).

The server keeps two shared maps:
  * `active_websockets : HashMap<SocketAddr, UnboundedSender<ChatMessage>>`
  * `connection_to_username : HashMap<SocketAddr, String>`
We embed a `SocketAddr` as an opaque `Nat`, a `HashMap` as an association
list with pairwise distinct keys (`nodupKeys`), an `UnboundedSender` as a
`Tx`: an open/closed flag (closed once the receiving task has dropped its
`rx`) together with the queue of messages enqueued so far.  `Instant::now()`
is modelled by threading an explicit `now : Nat` clock argument into every
function that stamps a time.
-/

namespace Chatey

/-- Opaque connection identity (`std::net::SocketAddr`). -/
abbrev SocketAddr := Nat

/-- `shared::ChatMessage` (src/shared/src/lib.rs, lines 21-27). -/
structure ChatMessage where
  from_addr : SocketAddr
  from_username : String
  timestamp : Nat
  message : String
deriving DecidableEq, Repr

/-- `ChatMessage::build` (src/shared/src/lib.rs, lines 30-37): wraps the
fields, stamping `timestamp` with `Instant::now()` (the `now` argument);
unconditionally returns `Some`. -/
def ChatMessage.build (socket : SocketAddr) (username : String)
    (message : String) (now : Nat) : Option ChatMessage :=
  some { from_addr := socket, from_username := username,
         timestamp := now, message := message }

/-- `ChatMessage::get_addr` (src/shared/src/lib.rs, lines 40-42). -/
def ChatMessage.get_addr (m : ChatMessage) : SocketAddr :=
  m.from_addr

/-- `ChatMessage::get_username` (src/shared/src/lib.rs, lines 45-47). -/
def ChatMessage.get_username (m : ChatMessage) : String :=
  m.from_username

/-- `ChatMessage::get_message` (src/shared/src/lib.rs, lines 50-52). -/
def ChatMessage.get_message (m : ChatMessage) : String :=
  m.message

/-- An `UnboundedSender<ChatMessage>` end of a tokio unbounded channel:
`isOpen` records whether the receiver is still alive, `queue` the messages
enqueued so far. -/
structure Tx where
  isOpen : Bool
  queue : List ChatMessage
deriving DecidableEq, Repr

/-- `UnboundedSender::send`: succeeds (appending to the receiver's queue)
exactly when the receiver has not been dropped. -/
def Tx.send (tx : Tx) (m : ChatMessage) : Option Tx :=
  if tx.isOpen then some { tx with queue := tx.queue ++ [m] } else none

/-! ### HashMap operations, embedded on association lists

`HashMap::get` / `insert` / `remove`.  Keys in a `HashMap` are pairwise
distinct; `nodupKeys` states that invariant for the embedding. -/

/-- `HashMap::get`: value of the first (in a real map: only) entry with the
given key. -/
def mapLookup {α : Type} : List (SocketAddr × α) → SocketAddr → Option α
  | [], _ => none
  | p :: rest, a => if p.1 = a then some p.2 else mapLookup rest a

/-- `HashMap::insert` (the map after): replaces the entry when the key is
present, otherwise adds a new entry. -/
def mapInsertList {α : Type} : List (SocketAddr × α) → SocketAddr → α →
    List (SocketAddr × α)
  | [], a, v => [(a, v)]
  | p :: rest, a, v =>
    if p.1 = a then (a, v) :: rest else p :: mapInsertList rest a v

/-- `HashMap::remove` (the map after): drops the entry with the given key. -/
def mapRemoveList {α : Type} : List (SocketAddr × α) → SocketAddr →
    List (SocketAddr × α)
  | [], _ => []
  | p :: rest, a =>
    if p.1 = a then mapRemoveList rest a else p :: mapRemoveList rest a

/-- `HashMap::insert` with its return value: the previous value for the key,
if any (`None` means a fresh insertion). -/
def register {α : Type} (r : List (SocketAddr × α)) (a : SocketAddr) (v : α) :
    List (SocketAddr × α) × Option α :=
  (mapInsertList r a v, mapLookup r a)

/-- `HashMap::remove` with its return value: the removed value, if any
(`None` means the key was absent and nothing was removed). -/
def deregister {α : Type} (r : List (SocketAddr × α)) (a : SocketAddr) :
    List (SocketAddr × α) × Option α :=
  (mapRemoveList r a, mapLookup r a)

/-- The `HashMap` key-uniqueness invariant. -/
def nodupKeys {α : Type} (r : List (SocketAddr × α)) : Prop :=
  (r.map Prod.fst).Nodup

/-! ### The broadcast relay (`broadcast_message`, src/server/src/main.rs
lines 215-237) -/

/-- The fan-out loop of `broadcast_message` (lines 221-230): walk the
registry; skip the entry whose key equals the message's sender address;
attempt `sender.send` on every other entry; collect in `inactive_addrs` the
keys whose send failed.  Returns the registry with the successful enqueues
applied together with `inactive_addrs`. -/
def broadcastFan (m : ChatMessage) : List (SocketAddr × Tx) →
    List (SocketAddr × Tx) × List SocketAddr
  | [] => ([], [])
  | (addr, tx) :: rest =>
    if addr = m.get_addr then
      let fanned := broadcastFan m rest
      ((addr, tx) :: fanned.1, fanned.2)
    else
      match tx.send m with
      | some tx2 =>
        let fanned := broadcastFan m rest
        ((addr, tx2) :: fanned.1, fanned.2)
      | none =>
        let fanned := broadcastFan m rest
        ((addr, tx) :: fanned.1, addr :: fanned.2)

/-- `broadcast_message` (src/server/src/main.rs lines 215-237): fan the
message out to every non-sender entry, then remove every address whose send
failed (lines 233-236). -/
def broadcast_message (m : ChatMessage) (actives : List (SocketAddr × Tx)) :
    List (SocketAddr × Tx) :=
  let fanned := broadcastFan m actives
  fanned.2.foldl (fun acc inactive => mapRemoveList acc inactive) fanned.1

/-! ### The per-connection session task (src/server/src/main.rs lines 75-109) -/

/-- The outcome of `read.next().await` on a websocket stream:
`Some(Ok(frame))`, `Some(Err(_))`, or `None` (stream ended). -/
inductive ReadResult where
  | frame (text : String)
  | readErr
  | streamEnd
deriving DecidableEq, Repr

/-- The server's shared state: the two maps created in `main`
(src/server/src/main.rs lines 57-58). -/
structure ServerState where
  active_websockets : List (SocketAddr × Tx)
  connection_to_username : List (SocketAddr × String)
deriving DecidableEq, Repr

/-- When a session task returns, its `rx` is dropped, which closes the
sender clone held in the registry: later sends to it fail. -/
def closeEntry : List (SocketAddr × Tx) → SocketAddr → List (SocketAddr × Tx)
  | [], _ => []
  | p :: rest, a =>
    if p.1 = a then (p.1, Tx.mk false p.2.queue) :: closeEntry rest a
    else p :: closeEntry rest a

/-- The prefix of the spawned session task (src/server/src/main.rs lines
75-109), up to entering the `loop`:
1. create the channel and insert `(ip, tx)` into `active_websockets`
   (lines 77-78) — before any handshake;
2. await the first frame as the username (lines 82-100); on `Err`/`None`
   close the stream and return — the early returns do NOT remove the `ip`
   entry from `active_websockets`, and dropping `rx` closes its channel;
3. on success record the username (line 103) and broadcast the entry
   notice (lines 106-109).
Returns the new state and whether the session reached the active loop. -/
def sessionAccept (st : ServerState) (ip : SocketAddr) (firstRead : ReadResult)
    (now : Nat) : ServerState × Bool :=
  let actives := mapInsertList st.active_websockets ip (Tx.mk true [])
  match firstRead with
  | ReadResult.readErr =>
    ({ active_websockets := closeEntry actives ip,
       connection_to_username := st.connection_to_username }, false)
  | ReadResult.streamEnd =>
    ({ active_websockets := closeEntry actives ip,
       connection_to_username := st.connection_to_username }, false)
  | ReadResult.frame username =>
    let usernames := mapInsertList st.connection_to_username ip username
    match ChatMessage.build ip "SYSTEM"
        (username ++ " has entered the channel") now with
    | some entry_message =>
      ({ active_websockets := broadcast_message entry_message actives,
         connection_to_username := usernames }, true)
    | none =>
      ({ active_websockets := actives,
         connection_to_username := usernames }, true)

/-! ### The inbound handler (`handle_received_from_client`,
src/server/src/main.rs lines 167-212) -/

/-- `shared::HandleResult` (src/shared/src/lib.rs lines 133-135). -/
inductive HandleResult where
  | ResponseSuccessful
deriving DecidableEq, Repr

/-- `shared::HandleError` (src/shared/src/lib.rs lines 138-142). -/
inductive HandleError where
  | ConnectionDropped
  | MalformedMessage
  | UnkownClient
deriving DecidableEq, Repr

/-- The observable outcome of one `handle_received_from_client` call:
either the handler returns (with the registry it leaves behind and its
`Result`), or it never returns — it blocks forever awaiting a lock, with
the registry frozen at the recorded contents under the held guard. -/
inductive HandlerStep where
  | done (active_websockets : List (SocketAddr × Tx))
         (result : Except HandleError HandleResult)
  | stuck (active_websockets : List (SocketAddr × Tx))
deriving Repr

/-- `handle_received_from_client` (src/server/src/main.rs lines 167-212):
look the caller's username up (lines 174-179, `UnkownClient` if absent —
that guard is a temporary dropped at the end of the statement); then on
`Some(Ok(frame))` build a `ChatMessage` stamped with the caller's address,
its table username and `Instant::now()` and broadcast it (lines 183-189);
on `Some(Err(_))` report `MalformedMessage` (line 192).  On `None` (lines
194-210) the arm acquires the registry guard `sockets`, removes the caller
(line 197), and then — with the guard still in scope — awaits
`broadcast_message`, which awaits `active_websockets.lock()` on the same
non-reentrant tokio `Mutex`: the inner lock can never be acquired, so the
call DEADLOCKS (the code's own TODO at line 200 records the exit message
not being broadcast).  The exit notice is never enqueued to any peer and
the handler never returns: the arm is embedded as `HandlerStep.stuck` with
the registry as mutated before the deadlock (caller removed, no notice
appended anywhere). -/
def handle_received_from_client (active_websockets : List (SocketAddr × Tx))
    (con_to_username : List (SocketAddr × String)) (readNext : ReadResult)
    (client_addr : SocketAddr) (now : Nat) : HandlerStep :=
  match mapLookup con_to_username client_addr with
  | none =>
    HandlerStep.done active_websockets (Except.error HandleError.UnkownClient)
  | some username =>
    match readNext with
    | ReadResult.frame text =>
      match ChatMessage.build client_addr username text now with
      | some chat_message =>
        HandlerStep.done (broadcast_message chat_message active_websockets)
          (Except.ok HandleResult.ResponseSuccessful)
      | none =>
        HandlerStep.done active_websockets
          (Except.error HandleError.MalformedMessage)
    | ReadResult.readErr =>
      HandlerStep.done active_websockets
        (Except.error HandleError.MalformedMessage)
    | ReadResult.streamEnd =>
      HandlerStep.stuck (mapRemoveList active_websockets client_addr)

/-! ### The outbound wire codec (src/shared/src/lib.rs lines 72-102,
src/server/src/main.rs lines 240-270)

`handle_received_from_server` converts the `ChatMessage` to a
`ClientMessage` and serializes it with `serde_json`.  We embed the JSON
document as a tree; the derived serde round trip on `ClientMessage` is
field-per-field, with `timestamp` rendered through `serde_millis` as an
integer. -/

/-- `shared::ClientMessage` (src/shared/src/lib.rs lines 72-79); the
`timestamp` field travels as an integer number of milliseconds. -/
structure ClientMessage where
  input_message : String
  from_username : String
  timestamp : Nat
deriving DecidableEq, Repr

/-- `ClientMessage::new` (src/shared/src/lib.rs lines 81-87): stamps
`timestamp` with `Instant::now()` (the `now` argument). -/
def ClientMessage.new (from_username : String) (input_message : String)
    (now : Nat) : ClientMessage :=
  { input_message := input_message, from_username := from_username,
    timestamp := now }

/-- `ClientMessage::from` (src/shared/src/lib.rs lines 100-102): copies the
username and body out of the `ChatMessage` and delegates to
`ClientMessage::new` — which stamps the conversion-time clock, not the
input's `timestamp`. -/
def ClientMessage.fromChat (input : ChatMessage) (now : Nat) : ClientMessage :=
  ClientMessage.new (input.get_username) (input.get_message) now

/-- A JSON document, as far as the wire format needs. -/
inductive Json where
  | str (s : String)
  | num (n : Nat)
  | obj (fields : List (String × Json))
deriving Repr

/-- Serde serialization of `ClientMessage` (derive `Serialize`): one object
with the three fields under their Rust names. -/
def ClientMessage.toJson (c : ClientMessage) : Json :=
  Json.obj [("input_message", Json.str c.input_message),
            ("from_username", Json.str c.from_username),
            ("timestamp", Json.num c.timestamp)]

/-- Field access in a serialized object. -/
def jsonField : List (String × Json) → String → Option Json
  | [], _ => none
  | p :: rest, key => if p.1 = key then some p.2 else jsonField rest key

/-- Serde deserialization of `ClientMessage` (derive `Deserialize`): all
three fields must be present with their expected shapes. -/
def ClientMessage.fromJson (j : Json) : Option ClientMessage :=
  match j with
  | Json.obj fields =>
    match jsonField fields "input_message", jsonField fields "from_username",
        jsonField fields "timestamp" with
    | some (Json.str im), some (Json.str fu), some (Json.num ts) =>
      some { input_message := im, from_username := fu, timestamp := ts }
    | _, _, _ => none
  | _ => none

/-- The server-to-client encode path (`handle_received_from_server`,
src/server/src/main.rs lines 244-257): `ClientMessage::from` then
serialization.  `now` is the clock at conversion time. -/
def encodeChat (m : ChatMessage) (now : Nat) : Json :=
  ClientMessage.toJson (ClientMessage.fromChat m now)

/-- The client-side decode path: deserialization of the wire document. -/
def decodeChat (j : Json) : Option ClientMessage :=
  ClientMessage.fromJson j

/-! ### Lock-discipline trace of `broadcast_message`
(src/server/src/main.rs lines 215-237)

The mutex guard `actives` is acquired at line 219 and dropped only when the
function returns, after the fan-out loop and the removals.  We record the
order of lock, send-attempt, removal and unlock events the function
performs. -/

/-- One observable event of `broadcast_message`. -/
inductive Ev where
  | lock
  | unlock
  | sendTo (a : SocketAddr)
  | removeAddr (a : SocketAddr)
deriving DecidableEq, Repr

/-- The send attempts of the fan-out loop, in registry order: one per
non-sender entry (lines 221-230). -/
def fanEvents (m : ChatMessage) : List (SocketAddr × Tx) → List Ev
  | [] => []
  | (addr, _) :: rest =>
    if addr = m.get_addr then fanEvents m rest
    else Ev.sendTo addr :: fanEvents m rest

/-- The event trace of one `broadcast_message` call: take the lock (line
219), perform every send attempt (lines 221-230), remove the failed
addresses (lines 233-236), drop the guard (function exit). -/
def broadcastTrace (m : ChatMessage) (actives : List (SocketAddr × Tx)) :
    List Ev :=
  Ev.lock ::
    (fanEvents m actives ++ (broadcastFan m actives).2.map Ev.removeAddr)
    ++ [Ev.unlock]

/-- The send attempts performed while the lock is held, given the lock
state at the start of the trace. -/
def lockedSends : List Ev → Bool → List SocketAddr
  | [], _ => []
  | Ev.lock :: rest, _ => lockedSends rest true
  | Ev.unlock :: rest, _ => lockedSends rest false
  | Ev.sendTo a :: rest, held =>
    if held then a :: lockedSends rest held else lockedSends rest held
  | Ev.removeAddr _ :: rest, held => lockedSends rest held

/-- All send attempts of a trace, locked or not. -/
def allSends : List Ev → List SocketAddr
  | [] => []
  | Ev.sendTo a :: rest => a :: allSends rest
  | _ :: rest => allSends rest

/-- The effect of one fan-out pass on the entry stored under key `a`
(proof-side helper used to characterise `broadcastFan`). -/
def fanApply (m : ChatMessage) (a : SocketAddr) (tx : Tx) : Tx :=
  if a = m.get_addr then tx
  else
    match tx.send m with
    | some tx2 => tx2
    | none => tx

/-! ### Lemmas about the map operations -/

theorem mapLookup_mapRemoveList {α : Type} (r : List (SocketAddr × α))
    (b a : SocketAddr) :
    mapLookup (mapRemoveList r b) a = if a = b then none else mapLookup r a := by
  induction r with
  | nil => simp [mapLookup, mapRemoveList]
  | cons p rest ih =>
    by_cases hpb : p.1 = b
    · rw [mapRemoveList, if_pos hpb, ih]
      by_cases hab : a = b
      · simp [hab]
      · have hpa : ¬ p.1 = a := by
          intro h; exact hab (h ▸ hpb)
        simp [hab, mapLookup, hpa]
    · rw [mapRemoveList, if_neg hpb]
      by_cases hpa : p.1 = a
      · have hab : ¬ a = b := by
          intro h; exact hpb (hpa.trans h)
        simp [mapLookup, hpa, hab]
      · simp [mapLookup, hpa, ih]

theorem mapLookup_mapInsertList {α : Type} (r : List (SocketAddr × α))
    (b a : SocketAddr) (v : α) :
    mapLookup (mapInsertList r b v) a =
      if a = b then some v else mapLookup r a := by
  induction r with
  | nil =>
    by_cases hab : a = b
    · simp [mapInsertList, mapLookup, hab]
    · have hba : ¬ b = a := fun h => hab h.symm
      simp [mapInsertList, mapLookup, hab, hba]
  | cons p rest ih =>
    by_cases hpb : p.1 = b
    · rw [mapInsertList, if_pos hpb]
      by_cases hab : a = b
      · simp [mapLookup, hab]
      · have hba : ¬ b = a := fun h => hab h.symm
        have hpa : ¬ p.1 = a := by
          intro h; exact hab (h ▸ hpb)
        simp [mapLookup, hba, hpa, hab]
    · rw [mapInsertList, if_neg hpb]
      by_cases hpa : p.1 = a
      · have hab : ¬ a = b := by
          intro h; exact hpb (hpa.trans h)
        simp [mapLookup, hpa, hab]
      · simp [mapLookup, hpa, ih]

theorem mapLookup_closeEntry (r : List (SocketAddr × Tx)) (b a : SocketAddr) :
    mapLookup (closeEntry r b) a =
      if a = b then Option.map (fun tx => Tx.mk false tx.queue) (mapLookup r a)
      else mapLookup r a := by
  induction r with
  | nil => simp [mapLookup, closeEntry]
  | cons p rest ih =>
    by_cases hpb : p.1 = b
    · rw [closeEntry, if_pos hpb]
      by_cases hpa : p.1 = a
      · have hab : a = b := hpa ▸ hpb
        simp [mapLookup, hpa, hab]
      · have : mapLookup ((p.1, Tx.mk false p.2.queue) :: closeEntry rest b) a =
            mapLookup (closeEntry rest b) a := by
          simp [mapLookup, hpa]
        rw [this, ih]
        simp [mapLookup, hpa]
    · rw [closeEntry, if_neg hpb]
      by_cases hpa : p.1 = a
      · have hab : ¬ a = b := by
          intro h; exact hpb (hpa.trans h)
        simp [mapLookup, hpa, hab]
      · simp [mapLookup, hpa, ih]

theorem mapLookup_foldl_remove {α : Type} (l : List SocketAddr)
    (s : List (SocketAddr × α)) (a : SocketAddr) :
    mapLookup (l.foldl (fun acc b => mapRemoveList acc b) s) a =
      if a ∈ l then none else mapLookup s a := by
  induction l generalizing s with
  | nil => simp
  | cons b l ih =>
    rw [List.foldl_cons, ih, mapLookup_mapRemoveList]
    by_cases hab : a = b
    · simp [hab]
    · by_cases hal : a ∈ l <;> simp [hab, hal]

theorem mapLookup_mem {α : Type} (r : List (SocketAddr × α)) (a : SocketAddr)
    (v : α) (h : mapLookup r a = some v) : (a, v) ∈ r := by
  induction r with
  | nil => simp [mapLookup] at h
  | cons p rest ih =>
    by_cases hpa : p.1 = a
    · rw [mapLookup, if_pos hpa] at h
      have : p = (a, v) := by
        cases p with
        | mk x y =>
          simp at hpa
          simp at h
          simp [hpa, h]
      simp [this]
    · rw [mapLookup, if_neg hpa] at h
      exact List.mem_cons_of_mem _ (ih h)

theorem mem_mapLookup {α : Type} (r : List (SocketAddr × α)) (p : SocketAddr × α)
    (hnd : nodupKeys r) (h : p ∈ r) : mapLookup r p.1 = some p.2 := by
  induction r with
  | nil => simp at h
  | cons q rest ih =>
    have hcons : (q.1 :: rest.map Prod.fst).Nodup := hnd
    have hq1 : q.1 ∉ rest.map Prod.fst := (List.nodup_cons.mp hcons).1
    have hnd2 : nodupKeys rest := (List.nodup_cons.mp hcons).2
    rcases List.mem_cons.mp h with hqp | hmem
    · subst hqp
      simp [mapLookup]
    · have hne : ¬ q.1 = p.1 := by
        intro heq
        exact hq1 (heq ▸ List.mem_map_of_mem Prod.fst hmem)
      rw [mapLookup, if_neg hne]
      exact ih hnd2 hmem

theorem not_mem_keys_mapLookup {α : Type} (r : List (SocketAddr × α))
    (a : SocketAddr) (h : a ∉ r.map Prod.fst) : mapLookup r a = none := by
  induction r with
  | nil => simp [mapLookup]
  | cons p rest ih =>
    have hpa : ¬ p.1 = a := by
      intro heq
      exact h (by simp [heq.symm])
    rw [mapLookup, if_neg hpa]
    exact ih (fun hmem => h (List.mem_cons_of_mem _ hmem))

theorem Tx.send_eq_none (tx : Tx) (m : ChatMessage) :
    tx.send m = none ↔ tx.isOpen = false := by
  cases tx with
  | mk o q => cases o <;> simp [Tx.send]

/-! ### Lemmas about the broadcast relay -/

theorem mapLookup_fan_fst (m : ChatMessage) (r : List (SocketAddr × Tx))
    (a : SocketAddr) :
    mapLookup (broadcastFan m r).1 a =
      Option.map (fanApply m a) (mapLookup r a) := by
  induction r with
  | nil => simp [broadcastFan, mapLookup]
  | cons p rest ih =>
    obtain ⟨addr, tx⟩ := p
    by_cases haddr : addr = m.get_addr
    · rw [broadcastFan, if_pos haddr]
      by_cases hpa : addr = a
      · simp [mapLookup, hpa, fanApply, hpa ▸ haddr]
      · simp only [mapLookup, hpa, if_neg, if_false]
        exact ih
    · rw [broadcastFan, if_neg haddr]
      cases hsend : tx.send m with
      | some tx2 =>
        by_cases hpa : addr = a
        · subst hpa
          simp [mapLookup, fanApply, haddr, hsend]
        · simp only [mapLookup, hpa, if_neg, if_false]
          exact ih
      | none =>
        by_cases hpa : addr = a
        · subst hpa
          simp [mapLookup, fanApply, haddr, hsend]
        · simp only [mapLookup, hpa, if_neg, if_false]
          exact ih

theorem mem_fan_snd_subset (m : ChatMessage) (r : List (SocketAddr × Tx))
    (a : SocketAddr) (h : a ∈ (broadcastFan m r).2) : a ∈ r.map Prod.fst := by
  induction r with
  | nil => simp [broadcastFan] at h
  | cons p rest ih =>
    obtain ⟨addr, tx⟩ := p
    by_cases haddr : addr = m.get_addr
    · rw [broadcastFan, if_pos haddr] at h
      exact List.mem_cons_of_mem _ (ih h)
    · rw [broadcastFan, if_neg haddr] at h
      cases hsend : tx.send m with
      | some tx2 =>
        rw [hsend] at h
        exact List.mem_cons_of_mem _ (ih h)
      | none =>
        rw [hsend] at h
        rcases List.mem_cons.mp h with heq | hmem
        · simp [heq]
        · exact List.mem_cons_of_mem _ (ih hmem)

theorem mem_fan_snd (m : ChatMessage) (r : List (SocketAddr × Tx))
    (hnd : nodupKeys r) (a : SocketAddr) :
    a ∈ (broadcastFan m r).2 ↔
      a ≠ m.get_addr ∧ ∃ tx, mapLookup r a = some tx ∧ tx.isOpen = false := by
  induction r with
  | nil => simp [broadcastFan, mapLookup]
  | cons p rest ih =>
    obtain ⟨addr, tx⟩ := p
    have hcons : (addr :: rest.map Prod.fst).Nodup := hnd
    have hq1 : addr ∉ rest.map Prod.fst := (List.nodup_cons.mp hcons).1
    have hnd2 : nodupKeys rest := (List.nodup_cons.mp hcons).2
    by_cases hpa : addr = a
    · subst hpa
      have hrest : mapLookup rest addr = none := not_mem_keys_mapLookup _ _ hq1
      have hnotrest : addr ∉ (broadcastFan m rest).2 := by
        intro hmem
        exact hq1 (mem_fan_snd_subset m rest addr hmem)
      by_cases haddr : addr = m.get_addr
      · rw [broadcastFan, if_pos haddr]
        simp only [haddr] at hnotrest
        simp [hnotrest, haddr]
      · rw [broadcastFan, if_neg haddr]
        cases hsend : tx.send m with
        | some tx2 =>
          have hopen : tx.isOpen = true := by
            cases htx : tx.isOpen
            · rw [(Tx.send_eq_none tx m).mpr htx] at hsend
              exact absurd hsend (by simp)
            · rfl
          simp [hnotrest, haddr, mapLookup, hopen]
        | none =>
          have hclosed : tx.isOpen = false := (Tx.send_eq_none tx m).mp hsend
          simp [haddr, mapLookup, hclosed]
    · have hlk : mapLookup ((addr, tx) :: rest) a = mapLookup rest a := by
        simp [mapLookup, hpa]
      by_cases haddr : addr = m.get_addr
      · rw [broadcastFan, if_pos haddr, hlk]
        exact ih hnd2
      · rw [broadcastFan, if_neg haddr, hlk]
        cases hsend : tx.send m with
        | some tx2 => exact ih hnd2
        | none =>
          constructor
          · intro h
            rcases List.mem_cons.mp h with heq | hmem
            · exact absurd heq.symm hpa
            · exact (ih hnd2).mp hmem
          · intro h
            exact List.mem_cons_of_mem _ ((ih hnd2).mpr h)

/-- The full effect of one `broadcast_message` call on the entry stored
under key `a`: absent keys stay absent, the sender's entry is untouched,
every other open entry gets the message appended to its queue, and every
other closed entry is removed. -/
theorem mapLookup_broadcast_message (m : ChatMessage)
    (r : List (SocketAddr × Tx)) (hnd : nodupKeys r) (a : SocketAddr) :
    mapLookup (broadcast_message m r) a =
      match mapLookup r a with
      | none => none
      | some tx =>
        if a = m.get_addr then some tx
        else if tx.isOpen then some (Tx.mk true (tx.queue ++ [m])) else none := by
  rw [broadcast_message]
  rw [mapLookup_foldl_remove, mapLookup_fan_fst]
  cases hlk : mapLookup r a with
  | none =>
    by_cases hmem : a ∈ (broadcastFan m r).2 <;> simp [hmem]
  | some tx =>
    by_cases hmem : a ∈ (broadcastFan m r).2
    · obtain ⟨hne, tx2, hlk2, hclosed⟩ := (mem_fan_snd m r hnd a).mp hmem
      rw [hlk] at hlk2
      have htx : tx2 = tx := by
        injection hlk2.symm
      subst htx
      simp [hmem, hne, hclosed]
    · rw [if_neg hmem]
      by_cases hsender : a = m.get_addr
      · simp [fanApply, hsender]
      · have hopen : tx.isOpen = true := by
          cases htx : tx.isOpen
          · exact absurd ((mem_fan_snd m r hnd a).mpr ⟨hsender, tx, hlk, htx⟩) hmem
          · rfl
        have hsend : tx.send m = some (Tx.mk true (tx.queue ++ [m])) := by
          cases tx with
          | mk o q =>
            simp at hopen
            simp [Tx.send, hopen]
        simp [fanApply, hsender, hsend, hopen]

/-! ### Preservation of the key-uniqueness invariant -/

theorem keys_closeEntry (r : List (SocketAddr × Tx)) (a : SocketAddr) :
    (closeEntry r a).map Prod.fst = r.map Prod.fst := by
  induction r with
  | nil => simp [closeEntry]
  | cons p rest ih =>
    by_cases hpa : p.1 = a
    · rw [closeEntry, if_pos hpa]
      simp [ih]
    · rw [closeEntry, if_neg hpa]
      simp [ih]

theorem keys_fan_fst (m : ChatMessage) (r : List (SocketAddr × Tx)) :
    (broadcastFan m r).1.map Prod.fst = r.map Prod.fst := by
  induction r with
  | nil => simp [broadcastFan]
  | cons p rest ih =>
    obtain ⟨addr, tx⟩ := p
    by_cases haddr : addr = m.get_addr
    · rw [broadcastFan, if_pos haddr]
      simp [ih]
    · rw [broadcastFan, if_neg haddr]
      cases hsend : tx.send m <;> simp [ih]

theorem mem_keys_mapInsertList {α : Type} (r : List (SocketAddr × α))
    (b x : SocketAddr) (v : α)
    (h : x ∈ (mapInsertList r b v).map Prod.fst) :
    x = b ∨ x ∈ r.map Prod.fst := by
  induction r with
  | nil =>
    simp [mapInsertList] at h
    exact Or.inl h
  | cons p rest ih =>
    by_cases hpb : p.1 = b
    · rw [mapInsertList, if_pos hpb] at h
      rcases List.mem_cons.mp h with heq | hmem
      · exact Or.inl heq
      · exact Or.inr (List.mem_cons_of_mem _ hmem)
    · rw [mapInsertList, if_neg hpb] at h
      rcases List.mem_cons.mp h with heq | hmem
      · exact Or.inr (by simp [heq])
      · rcases ih hmem with h1 | h2
        · exact Or.inl h1
        · exact Or.inr (List.mem_cons_of_mem _ h2)

theorem nodupKeys_mapInsertList {α : Type} (r : List (SocketAddr × α))
    (b : SocketAddr) (v : α) (hnd : nodupKeys r) :
    nodupKeys (mapInsertList r b v) := by
  induction r with
  | nil => simp [mapInsertList, nodupKeys]
  | cons p rest ih =>
    have hcons : (p.1 :: rest.map Prod.fst).Nodup := hnd
    have hp1 : p.1 ∉ rest.map Prod.fst := (List.nodup_cons.mp hcons).1
    have hnd2 : nodupKeys rest := (List.nodup_cons.mp hcons).2
    by_cases hpb : p.1 = b
    · rw [mapInsertList, if_pos hpb]
      have : (b :: rest.map Prod.fst).Nodup :=
        List.nodup_cons.mpr ⟨hpb ▸ hp1, hnd2⟩
      exact this
    · rw [mapInsertList, if_neg hpb]
      have hmem : p.1 ∉ (mapInsertList rest b v).map Prod.fst := by
        intro hm
        rcases mem_keys_mapInsertList rest b p.1 v hm with h1 | h2
        · exact hpb h1
        · exact hp1 h2
      exact List.nodup_cons.mpr ⟨hmem, ih hnd2⟩

theorem keys_mapRemoveList_sublist {α : Type} (r : List (SocketAddr × α))
    (a : SocketAddr) :
    List.Sublist ((mapRemoveList r a).map Prod.fst) (r.map Prod.fst) := by
  induction r with
  | nil => simp [mapRemoveList]
  | cons p rest ih =>
    by_cases hpa : p.1 = a
    · rw [mapRemoveList, if_pos hpa]
      exact List.Sublist.trans ih (List.sublist_cons_self _ _)
    · rw [mapRemoveList, if_neg hpa]
      simpa using List.Sublist.cons₂ p.1 ih

theorem nodupKeys_mapRemoveList {α : Type} (r : List (SocketAddr × α))
    (a : SocketAddr) (hnd : nodupKeys r) : nodupKeys (mapRemoveList r a) :=
  List.Nodup.sublist (keys_mapRemoveList_sublist r a) hnd

theorem nodupKeys_foldl_remove {α : Type} (l : List SocketAddr)
    (s : List (SocketAddr × α)) (hnd : nodupKeys s) :
    nodupKeys (l.foldl (fun acc b => mapRemoveList acc b) s) := by
  induction l generalizing s with
  | nil => exact hnd
  | cons b l ih =>
    rw [List.foldl_cons]
    exact ih _ (nodupKeys_mapRemoveList s b hnd)

theorem nodupKeys_broadcast_message (m : ChatMessage)
    (r : List (SocketAddr × Tx)) (hnd : nodupKeys r) :
    nodupKeys (broadcast_message m r) := by
  rw [broadcast_message]
  apply nodupKeys_foldl_remove
  have : nodupKeys (broadcastFan m r).1 := by
    have hk := keys_fan_fst m r
    rw [nodupKeys, hk]
    exact hnd
  exact this

theorem nodupKeys_closeEntry (r : List (SocketAddr × Tx)) (a : SocketAddr)
    (hnd : nodupKeys r) : nodupKeys (closeEntry r a) := by
  rw [nodupKeys, keys_closeEntry]
  exact hnd

theorem mapRemoveList_of_lookup_none {α : Type} (r : List (SocketAddr × α))
    (a : SocketAddr) (h : mapLookup r a = none) : mapRemoveList r a = r := by
  induction r with
  | nil => simp [mapRemoveList]
  | cons p rest ih =>
    by_cases hpa : p.1 = a
    · rw [mapLookup, if_pos hpa] at h
      exact absurd h (by simp)
    · rw [mapLookup, if_neg hpa] at h
      rw [mapRemoveList, if_neg hpa, ih h]

/-! ### The claims -/

/-- C2: for every registry with pairwise distinct keys whose channels are
all live and every `ChatMessage` built from peer `P`'s frame,
`broadcast_message` enqueues the message exactly once onto the outbound
channel of every registered peer other than `P` (its queue afterwards is
its old queue with the message appended once), and never onto `P`'s own
channel (the entry whose key equals the message's sender address is left
untouched). -/
theorem broadcast_delivers_to_every_other_peer_exactly_once (m : ChatMessage)
    (r : List (SocketAddr × Tx)) (hnd : nodupKeys r)
    (hopen : ∀ p ∈ r, p.2.isOpen = true) :
    (∀ p ∈ r, p.1 ≠ m.get_addr →
      mapLookup (broadcast_message m r) p.1 =
        some (Tx.mk true (p.2.queue ++ [m]))) ∧
    (∀ p ∈ r, p.1 = m.get_addr →
      mapLookup (broadcast_message m r) p.1 = some p.2) := by
  constructor
  · intro p hp hne
    rw [mapLookup_broadcast_message m r hnd, mem_mapLookup r p hnd hp]
    simp [hne, hopen p hp]
  · intro p hp heq
    rw [mapLookup_broadcast_message m r hnd, mem_mapLookup r p hnd hp]
    simp [heq]

/-- Witness for C2: a two-peer registry; peer 0 sends, peer 1's queue gets
the message appended exactly once. -/
theorem broadcast_delivers_to_every_other_peer_exactly_once_witness :
    mapLookup
      (broadcast_message (ChatMessage.mk 0 "alice" 0 "hi")
        [(0, Tx.mk true []), (1, Tx.mk true [])]) 1 =
      some (Tx.mk true ([] ++ [ChatMessage.mk 0 "alice" 0 "hi"])) :=
  (broadcast_delivers_to_every_other_peer_exactly_once
    (ChatMessage.mk 0 "alice" 0 "hi") [(0, Tx.mk true []), (1, Tx.mk true [])]
    (by unfold nodupKeys; decide) (by decide)).1 (1, Tx.mk true [])
    (by decide) (by decide)

/-- C4: if the enqueue to some target fails during a broadcast, the
broadcast still delivers to every other live non-sender peer in the same
call; exactly the failed peers are removed from the registry after the
fan-out loop (live non-sender peers keep their entry with the message
appended, the sender's entry is untouched, absent keys stay absent); the
function never aborts — it is total and returns no error to the sender. -/
theorem broadcast_failure_isolated_and_failed_pruned (m : ChatMessage)
    (r : List (SocketAddr × Tx)) (hnd : nodupKeys r) :
    (∀ p ∈ r, p.1 ≠ m.get_addr → p.2.isOpen = true →
      mapLookup (broadcast_message m r) p.1 =
        some (Tx.mk true (p.2.queue ++ [m]))) ∧
    (∀ p ∈ r, p.1 ≠ m.get_addr → p.2.isOpen = false →
      mapLookup (broadcast_message m r) p.1 = none) ∧
    (∀ p ∈ r, p.1 = m.get_addr →
      mapLookup (broadcast_message m r) p.1 = some p.2) ∧
    (∀ a, mapLookup r a = none → mapLookup (broadcast_message m r) a = none) := by
  refine ⟨?_, ?_, ?_, ?_⟩
  · intro p hp hne hopen
    rw [mapLookup_broadcast_message m r hnd, mem_mapLookup r p hnd hp]
    simp [hne, hopen]
  · intro p hp hne hclosed
    rw [mapLookup_broadcast_message m r hnd, mem_mapLookup r p hnd hp]
    simp [hne, hclosed]
  · intro p hp heq
    rw [mapLookup_broadcast_message m r hnd, mem_mapLookup r p hnd hp]
    simp [heq]
  · intro a ha
    rw [mapLookup_broadcast_message m r hnd, ha]

/-- Witness for C4: peer 0 sends into a registry where peer 1's channel is
closed and peer 2's is open; peer 2 still receives the message. -/
theorem broadcast_failure_isolated_and_failed_pruned_witness :
    mapLookup
      (broadcast_message (ChatMessage.mk 0 "alice" 0 "hi")
        [(0, Tx.mk true []), (1, Tx.mk false []), (2, Tx.mk true [])]) 2 =
      some (Tx.mk true ([] ++ [ChatMessage.mk 0 "alice" 0 "hi"])) :=
  (broadcast_failure_isolated_and_failed_pruned
    (ChatMessage.mk 0 "alice" 0 "hi")
    [(0, Tx.mk true []), (1, Tx.mk false []), (2, Tx.mk true [])]
    (by unfold nodupKeys; decide)).1 (2, Tx.mk true [])
    (by decide) (by decide) (by decide)

/-- C8: deregistering an id that is not present returns `None`
("not removed") and leaves the registry exactly unchanged, so a
double-removal from two code paths is a no-op rather than an error. -/
theorem deregister_absent_is_noop (r : List (SocketAddr × Tx))
    (a : SocketAddr) (h : mapLookup r a = none) :
    deregister r a = (r, none) := by
  rw [deregister, h, mapRemoveList_of_lookup_none r a h]

/-- Witness for C8: removing absent id 0 from a one-peer registry changes
nothing and reports nothing removed. -/
theorem deregister_absent_is_noop_witness :
    deregister [(1, Tx.mk true [])] 0 = ([(1, Tx.mk true [])], none) :=
  deregister_absent_is_noop [(1, Tx.mk true [])] 0 (by decide)

/-- C9: `ChatMessage::build` returns `Some` for every socket address,
username, message and clock value, so the `MalformedMessage` branch
guarding its result at the intake call site is unreachable: handling a
successfully read frame never reports `MalformedMessage`. -/
theorem build_always_some_and_malformed_guard_unreachable :
    (∀ (socket : SocketAddr) (username message : String) (now : Nat),
      (ChatMessage.build socket username message now).isSome = true) ∧
    (∀ (aw : List (SocketAddr × Tx)) (cu : List (SocketAddr × String))
      (a : SocketAddr) (t : String) (now : Nat)
      (reg : List (SocketAddr × Tx)),
      handle_received_from_client aw cu (ReadResult.frame t) a now ≠
        HandlerStep.done reg (Except.error HandleError.MalformedMessage)) := by
  constructor
  · intro socket username message now
    rfl
  · intro aw cu a t now reg
    simp only [handle_received_from_client]
    cases hlk : mapLookup cu a with
    | none => simp
    | some username => simp [ChatMessage.build]

/-- C3 counterexample: with id 0 already registered (holding an open
channel), registering id 0 again replaces the stored entry with the new
handle — the existing entry IS overwritten, and instead of a signaled
error the call returns the displaced old value.  This refutes "registering
that id again fails ... and does not overwrite the existing entry". -/
theorem register_duplicate_counterexample :
    register [(0, Tx.mk true [])] 0 (Tx.mk false []) =
      ([(0, Tx.mk false [])], some (Tx.mk true [])) ∧
    (Tx.mk false [] : Tx) ≠ Tx.mk true [] := by
  constructor
  · rfl
  · decide

/-- C3 amended: registration is `HashMap::insert`: it always succeeds.
When the id is already present it silently overwrites the stored handle
and returns the previous one (no error is signaled); when the id is absent
it inserts.  The map at every other id is unchanged. -/
theorem register_always_inserts_overwriting (r : List (SocketAddr × Tx))
    (a : SocketAddr) (v : Tx) :
    mapLookup (register r a v).1 a = some v ∧
    (register r a v).2 = mapLookup r a ∧
    (∀ b, b ≠ a → mapLookup (register r a v).1 b = mapLookup r b) := by
  refine ⟨?_, rfl, ?_⟩
  · show mapLookup (mapInsertList r a v) a = some v
    rw [mapLookup_mapInsertList]
    simp
  · intro b hb
    show mapLookup (mapInsertList r a v) b = mapLookup r b
    rw [mapLookup_mapInsertList, if_neg hb]

/-- Witness for the C3 amended theorem: overwriting registration of id 0
leaves the entry of id 1 unchanged. -/
theorem register_always_inserts_overwriting_witness :
    mapLookup
      (register [(0, Tx.mk true []), (1, Tx.mk true [])] 0 (Tx.mk false [])).1
      1 =
      mapLookup [(0, Tx.mk true []), (1, Tx.mk true [])] 1 :=
  (register_always_inserts_overwriting
    [(0, Tx.mk true []), (1, Tx.mk true [])] 0 (Tx.mk false [])).2.2 1
    (by decide)

/-- C6 counterexample: take a `ChatMessage` whose `timestamp` is 5 and
encode it when the conversion-time clock reads 7 (`ClientMessage::from`
calls `ClientMessage::new`, which stamps `Instant::now()`).  Decoding the
wire form yields timestamp 7, not the message's 5: the round trip is NOT
lossless for the timestamp field.  Body and name do survive. -/
theorem codec_roundtrip_counterexample :
    decodeChat (encodeChat (ChatMessage.mk 0 "alice" 5 "hi") 7) =
      some (ClientMessage.mk "hi" "alice" 7) ∧
    (ChatMessage.mk 0 "alice" 5 "hi").timestamp = 5 ∧ (7 : Nat) ≠ 5 := by
  refine ⟨rfl, rfl, by decide⟩

/-- C6 amended: for every `ChatMessage` with arbitrary UTF-8 body
(including the empty string and strings with control characters), decoding
the encoded wire form yields a message whose body and sender display name
equal those of the original; the timestamp is NOT preserved — it is
replaced by the clock value at conversion time, because
`ClientMessage::from` re-stamps via `ClientMessage::new`. -/
theorem codec_roundtrip_body_and_name_lossless (m : ChatMessage) (now : Nat) :
    decodeChat (encodeChat m now) =
      some (ClientMessage.mk m.message m.from_username now) := by
  rfl

theorem allSends_append (l1 l2 : List Ev) :
    allSends (l1 ++ l2) = allSends l1 ++ allSends l2 := by
  induction l1 with
  | nil => simp [allSends]
  | cons e rest ih => cases e <;> simp [allSends, ih]

theorem lockedSends_fanEvents (m : ChatMessage) (r : List (SocketAddr × Tx))
    (rest : List Ev) :
    lockedSends (fanEvents m r ++ rest) true =
      allSends (fanEvents m r) ++ lockedSends rest true := by
  induction r with
  | nil => simp [fanEvents, allSends]
  | cons p rest2 ih =>
    obtain ⟨addr, tx⟩ := p
    by_cases haddr : addr = m.get_addr
    · rw [fanEvents, if_pos haddr]
      exact ih
    · rw [fanEvents, if_neg haddr, List.cons_append]
      show addr :: lockedSends (fanEvents m rest2 ++ rest) true =
        allSends (Ev.sendTo addr :: fanEvents m rest2) ++ lockedSends rest true
      rw [ih]
      rfl

theorem lockedSends_removes (l : List SocketAddr) (rest : List Ev) (b : Bool) :
    lockedSends (l.map Ev.removeAddr ++ rest) b = lockedSends rest b := by
  induction l with
  | nil => simp
  | cons a l ih =>
    simp only [List.map_cons, List.cons_append, lockedSends]
    exact ih

theorem allSends_removes (l : List SocketAddr) :
    allSends (l.map Ev.removeAddr) = [] := by
  induction l with
  | nil => rfl
  | cons a l ih => simpa [allSends] using ih

/-- C7 counterexample: broadcasting into the one-peer registry `[(1, open)]`
a message whose sender is address 0, the trace of the call contains a send
attempt performed while the registry lock is held — refuting the claim
that the snapshot is taken in a critical section, the lock released, and
only then the enqueues performed (the guard taken at line 219 of
src/server/src/main.rs lives until the function returns). -/
theorem broadcast_lock_held_across_sends_counterexample :
    lockedSends
      (broadcastTrace (ChatMessage.mk 0 "alice" 0 "hi") [(1, Tx.mk true [])])
      false ≠ [] := by
  decide

/-- C7 amended: `broadcast_message` performs the whole call in one critical
section: the trace starts with the lock acquisition, ends with the release,
and EVERY send attempt happens while the lock is held (the enqueues are
non-blocking unbounded-channel sends, but concurrent registry operations
are excluded for the duration of the broadcast, including its sends). -/
theorem broadcast_whole_call_in_one_critical_section (m : ChatMessage)
    (r : List (SocketAddr × Tx)) :
    lockedSends (broadcastTrace m r) false = allSends (broadcastTrace m r) ∧
    (broadcastTrace m r).head? = some Ev.lock ∧
    (broadcastTrace m r).getLast? = some Ev.unlock := by
  refine ⟨?_, rfl, ?_⟩
  · rw [broadcastTrace]
    have hL : lockedSends
        (Ev.lock :: (fanEvents m r ++ (broadcastFan m r).2.map Ev.removeAddr)
          ++ [Ev.unlock]) false =
        lockedSends
          ((fanEvents m r ++ (broadcastFan m r).2.map Ev.removeAddr)
            ++ [Ev.unlock]) true := rfl
    rw [hL, List.append_assoc, lockedSends_fanEvents, lockedSends_removes]
    have hR : allSends
        (Ev.lock :: (fanEvents m r ++ (broadcastFan m r).2.map Ev.removeAddr)
          ++ [Ev.unlock]) =
        allSends
          ((fanEvents m r ++ (broadcastFan m r).2.map Ev.removeAddr)
            ++ [Ev.unlock]) := rfl
    rw [hR, List.append_assoc, allSends_append, allSends_append,
      allSends_removes]
    simp [lockedSends, allSends]
  · rw [broadcastTrace, ← List.cons_append]
    exact List.getLast?_concat _

/-- C1 counterexample: starting from the empty server state, a connection
from address 0 whose stream ends before any username frame (`streamEnd`)
makes the session task return (`false` = it never reached the active
loop), yet its `SessionRecord` IS left in `active_websockets` — refuting
"a connection that disconnects or errors before sending a name is never
visible in any snapshot of the registry" and "the registry never retains
an entry for a session task that has fully exited". -/
theorem handshake_failure_leaves_registry_entry_counterexample :
    (sessionAccept (ServerState.mk [] []) 0 ReadResult.streamEnd 0).2 = false ∧
    mapLookup
      (sessionAccept (ServerState.mk [] [])
        0 ReadResult.streamEnd 0).1.active_websockets 0 =
      some (Tx.mk false []) :=
  ⟨rfl, rfl⟩

/-- C1 amended: the session's registry entry is inserted when the
connection is accepted, BEFORE the username handshake (line 78 of
src/server/src/main.rs).  A connection that disconnects or errors before
sending a name exits its task without deregistering: its entry stays in
the registry (with a closed channel, since the task's `rx` is dropped), it
records no username, it triggers no departure notice (every other entry is
unchanged), and it is removed only later, when some broadcast from another
sender attempts a send to it and prunes the failure. -/
theorem session_registered_at_accept_leaked_on_failed_handshake
    (st : ServerState) (ip : SocketAddr) (fr : ReadResult) (now : Nat)
    (hnd : nodupKeys st.active_websockets)
    (hfr : fr = ReadResult.readErr ∨ fr = ReadResult.streamEnd) :
    (sessionAccept st ip fr now).2 = false ∧
    mapLookup (sessionAccept st ip fr now).1.active_websockets ip =
      some (Tx.mk false []) ∧
    (sessionAccept st ip fr now).1.connection_to_username =
      st.connection_to_username ∧
    (∀ b, b ≠ ip →
      mapLookup (sessionAccept st ip fr now).1.active_websockets b =
        mapLookup st.active_websockets b) ∧
    (∀ m : ChatMessage, m.get_addr ≠ ip →
      mapLookup
        (broadcast_message m (sessionAccept st ip fr now).1.active_websockets)
        ip = none) := by
  have hreg : (sessionAccept st ip fr now).1.active_websockets =
      closeEntry (mapInsertList st.active_websockets ip (Tx.mk true [])) ip := by
    rcases hfr with h | h <;> subst h <;> rfl
  have hexit : (sessionAccept st ip fr now).2 = false := by
    rcases hfr with h | h <;> subst h <;> rfl
  have husers : (sessionAccept st ip fr now).1.connection_to_username =
      st.connection_to_username := by
    rcases hfr with h | h <;> subst h <;> rfl
  have hlkip : mapLookup (sessionAccept st ip fr now).1.active_websockets ip =
      some (Tx.mk false []) := by
    rw [hreg, mapLookup_closeEntry, if_pos rfl, mapLookup_mapInsertList,
      if_pos rfl]
    rfl
  refine ⟨hexit, hlkip, husers, ?_, ?_⟩
  · intro b hb
    rw [hreg, mapLookup_closeEntry, if_neg hb, mapLookup_mapInsertList,
      if_neg hb]
  · intro m hm
    have hnd2 : nodupKeys (sessionAccept st ip fr now).1.active_websockets := by
      rw [hreg]
      exact nodupKeys_closeEntry _ _ (nodupKeys_mapInsertList _ _ _ hnd)
    rw [mapLookup_broadcast_message _ _ hnd2 ip, hlkip]
    have hne : ¬ ip = m.get_addr := fun h => hm h.symm
    simp [hne]

/-- Witness for the C1 amended theorem: with peer 1 already active, a
connection from address 0 that ends before its username frame leaves a
closed entry for 0 in the registry. -/
theorem session_registered_at_accept_leaked_on_failed_handshake_witness :
    mapLookup
      (sessionAccept (ServerState.mk [(1, Tx.mk true [])] [(1, "bob")])
        0 ReadResult.streamEnd 0).1.active_websockets 0 =
      some (Tx.mk false []) :=
  (session_registered_at_accept_leaked_on_failed_handshake
    (ServerState.mk [(1, Tx.mk true [])] [(1, "bob")]) 0 ReadResult.streamEnd 0
    (by unfold nodupKeys; decide) (Or.inr rfl)).2.1

/-- C5: for any two inbound frames from the same connection that differ
only in their payload text, the `ChatMessage`s the server broadcasts
differ only in their bodies: both are built with the sender's address, the
username stored in the server-side table for that connection, and the
server's intake clock — nothing in the frame text reaches the name or the
timestamp. -/
theorem client_frames_cannot_spoof_name_or_timestamp
    (aw : List (SocketAddr × Tx)) (cu : List (SocketAddr × String))
    (a : SocketAddr) (now : Nat) (name t1 t2 : String)
    (h : mapLookup cu a = some name) :
    handle_received_from_client aw cu (ReadResult.frame t1) a now =
      HandlerStep.done (broadcast_message (ChatMessage.mk a name now t1) aw)
        (Except.ok HandleResult.ResponseSuccessful) ∧
    handle_received_from_client aw cu (ReadResult.frame t2) a now =
      HandlerStep.done (broadcast_message (ChatMessage.mk a name now t2) aw)
        (Except.ok HandleResult.ResponseSuccessful) ∧
    ChatMessage.build a name t1 now = some (ChatMessage.mk a name now t1) ∧
    (ChatMessage.mk a name now t1).from_username =
      (ChatMessage.mk a name now t2).from_username ∧
    (ChatMessage.mk a name now t1).timestamp =
      (ChatMessage.mk a name now t2).timestamp ∧
    (ChatMessage.mk a name now t1).from_addr =
      (ChatMessage.mk a name now t2).from_addr ∧
    (ChatMessage.mk a name now t1).from_username = name ∧
    (ChatMessage.mk a name now t1).timestamp = now ∧
    (ChatMessage.mk a name now t1).message = t1 ∧
    (ChatMessage.mk a name now t2).message = t2 := by
  refine ⟨?_, ?_, rfl, rfl, rfl, rfl, rfl, rfl, rfl, rfl⟩
  · simp [handle_received_from_client, h, ChatMessage.build]
  · simp [handle_received_from_client, h, ChatMessage.build]

/-- Witness for C5: with username table `[(0, "alice")]`, the frame "x"
from connection 0 is broadcast as a message carrying name "alice" and the
server clock. -/
theorem client_frames_cannot_spoof_name_or_timestamp_witness :
    handle_received_from_client [] [(0, "alice")] (ReadResult.frame "x") 0 3 =
      HandlerStep.done (broadcast_message (ChatMessage.mk 0 "alice" 3 "x") [])
        (Except.ok HandleResult.ResponseSuccessful) :=
  (client_frames_cannot_spoof_name_or_timestamp [] [(0, "alice")] 0 3
    "alice" "x" "y" (by decide)).1

/-- C10: the code evaluated at the failing input.  Registry
`[(0, open, []), (1, open, [])]`, username table `[(0, "bob")]`, client
0's stream ends at clock 5: the stream-end arm removes client 0 and then
deadlocks (`HandlerStep.stuck`) re-locking the registry mutex it already
holds, so the "bob has exited the channel" notice is never enqueued —
peer 1's queue is still empty — and no peer ever receives a leave notice.
For contrast, the third conjunct shows the join path at the same
addresses does deliver the entry notice to peer 1 (built with the
subject's address and name "SYSTEM", and excluded from the subject). -/
theorem exit_notice_never_broadcast_at_failing_input :
    handle_received_from_client [(0, Tx.mk true []), (1, Tx.mk true [])]
      [(0, "bob")] ReadResult.streamEnd 0 5 =
      HandlerStep.stuck [(1, Tx.mk true [])] ∧
    mapLookup [(1, Tx.mk true [])] 1 = some (Tx.mk true []) ∧
    mapLookup
      (sessionAccept (ServerState.mk [(1, Tx.mk true [])] []) 0
        (ReadResult.frame "bob") 5).1.active_websockets 1 =
      some (Tx.mk true
        [ChatMessage.mk 0 "SYSTEM" 5 "bob has entered the channel"]) :=
  ⟨rfl, rfl, rfl⟩

end Chatey
